import Mathlib

/-!
Verification of the asynchronous job-status polling protocol and the upload
wizard of the report_valuation repository. The client-side polling loop is
the useJobPoller example in the repository README; the upload wizard is the
Upload component of the web app; the batch import/analyze flows are
handleImportAndAnalyze and handleRunPipeline. The worker state machine is
modelled from the specification, since the Celery worker code is not part of
the repository sources.
-/

/-- The nine JobStatus string values declared in the README polling example
(type JobStatus in useJobPoller). -/
inductive ProcessingStatus where
  | queued
  | processing
  | ocr_started
  | ocr_completed
  | translation_started
  | translation_completed
  | summarising
  | completed
  | failed
deriving DecidableEq, Repr, Fintype

/-- The details object of the GET jobs response, as typed by
reportsApi.pollJobStatus. All fields other than processing_status are
nullable. -/
structure JobDetails where
  processing_status : ProcessingStatus
  current_page : Option Int
  total_pages : Option Int
  output_pdf_path : Option String
  error_message : Option String
  completed_at : Option String
  summary : Option String
deriving DecidableEq, Repr

/-- The celery object of the GET jobs response, as typed by
reportsApi.pollJobStatus: the queue-engine execution state. -/
structure CeleryInfo where
  state : String
  ready : Bool
  succeeded : Bool
  failed : Bool
deriving DecidableEq, Repr

/-- What one tick of the useJobPoller poll function can observe: the fetch
either throws (network error) or yields a response with an ok flag, the
parsed celery and details objects, and an optional download_url. -/
inductive FetchResult where
  | netError
  | response (ok : Bool) (celery : CeleryInfo) (details : Option JobDetails)
      (download_url : Option String)
deriving DecidableEq, Repr

/-- The local state of one useJobPoller hook instance: the cached details
snapshot (setState), the cached download url (setDownloadUrl), and whether
the interval has been cleared by a terminal observation. -/
structure PollerS where
  state : Option JobDetails
  downloadUrl : Option String
  stopped : Bool
deriving DecidableEq, Repr

/-- The done test of useJobPoller:
["completed", "failed"].includes(data.details?.processing_status).
A null details object makes the optional chain yield no status, so the
includes test is false. -/
def detailsDone : Option JobDetails → Bool
  | none => false
  | some d => d.processing_status == ProcessingStatus.completed ||
      d.processing_status == ProcessingStatus.failed

/-- One tick of the useJobPoller poll function. A thrown fetch leaves the
state unchanged (the interval is never cleared on that path); a non-ok
response returns early; an ok response stores data.details, stores
download_url when present (the code sets it only when truthy), and clears
the interval exactly when the done test holds. The celery object of the
response is never consulted. -/
def pollTick (r : FetchResult) (s : PollerS) : PollerS :=
  if s.stopped then s
  else
    match r with
    | FetchResult.netError => s
    | FetchResult.response ok _celery details durl =>
        if !ok then s
        else
          { state := details
            downloadUrl := match durl with | some u => some u | none => s.downloadUrl
            stopped := detailsDone details }

/-- Folding pollTick over a sequence of tick observations. -/
def runPoller (ticks : List FetchResult) (s : PollerS) : PollerS :=
  ticks.foldl (fun st r => pollTick r st) s

/-- Hook state right after mount, before any response has arrived. -/
def pollerInit : PollerS := { state := none, downloadUrl := none, stopped := false }

/-- The condition under which one observation actually stops the loop in the
code: an ok response whose details object carries a terminal
processing_status. -/
def observedTerminal : FetchResult → Bool
  | FetchResult.response true _ details _ => detailsDone details
  | _ => false

/-- The termination condition asserted by the claim: the observed
processing_status is terminal, OR the queue-engine independently reports
failure, the two signals joined by logical OR. -/
def claimedStopCondition : FetchResult → Bool
  | FetchResult.netError => false
  | FetchResult.response ok c details _ => ok && (detailsDone details || c.failed)

/-- A queue-engine report of failure (a crashed worker). -/
def celeryFailureInfo : CeleryInfo :=
  { state := "FAILURE", ready := true, succeeded := false, failed := true }

/-- Queue-engine state while a task runs normally. -/
def celeryStartedInfo : CeleryInfo :=
  { state := "STARTED", ready := false, succeeded := false, failed := false }

/-- Queue-engine state for a task the broker has not seen. -/
def celeryPendingInfo : CeleryInfo :=
  { state := "PENDING", ready := false, succeeded := false, failed := false }

/-- A Job Store snapshot stuck at the non-terminal status processing. -/
def stuckDetails : JobDetails :=
  { processing_status := ProcessingStatus.processing
    current_page := none, total_pages := none, output_pdf_path := none
    error_message := none, completed_at := none, summary := none }

/-- A completed Job Store snapshot, as in the README sample response. -/
def completedDetails : JobDetails :=
  { processing_status := ProcessingStatus.completed
    current_page := none, total_pages := some 8
    output_pdf_path := some "/app/uploads/out_translated.pdf"
    error_message := none
    completed_at := some "2026-02-19T08:22:15.000Z"
    summary := some "This document describes a land transfer." }

/-- An observation in which the queue engine reports failure while the Job
Store status is still non-terminal (the worker-crash case named by the
spec). -/
def celeryFailedObservation : FetchResult :=
  FetchResult.response true celeryFailureInfo (some stuckDetails) none

/-- An ok observation of a job still in progress. -/
def okProcessingObservation : FetchResult :=
  FetchResult.response true celeryStartedInfo (some stuckDetails) none

/-- An ok observation of a completed job. -/
def okCompletedObservation : FetchResult :=
  FetchResult.response true
    { state := "SUCCESS", ready := true, succeeded := true, failed := false }
    (some completedDetails) (some "/uploads/out_translated.pdf")

/-- A not-found reply for an unknown job id, modelled from the spec as a
non-ok HTTP response (404); the poll code reads res.ok before any body
field, so the carried payload is irrelevant. -/
def notFoundResponse : FetchResult :=
  FetchResult.response false celeryPendingInfo none none

lemma pollTick_netError (s : PollerS) : pollTick FetchResult.netError s = s := by
  unfold pollTick
  split <;> rfl

lemma pollTick_notOk (c : CeleryInfo) (d : Option JobDetails) (u : Option String)
    (s : PollerS) : pollTick (FetchResult.response false c d u) s = s := by
  unfold pollTick
  split <;> rfl

lemma pollTick_stopped_mono (r : FetchResult) (s : PollerS) (h : s.stopped = true) :
    pollTick r s = s := by
  unfold pollTick
  simp [h]

lemma pollTick_stops (r : FetchResult) (s : PollerS) :
    (pollTick r s).stopped = true → s.stopped = true ∨ observedTerminal r = true := by
  unfold pollTick
  split
  · exact fun h => Or.inl h
  · match r with
    | FetchResult.netError => exact fun h => Or.inl h
    | FetchResult.response ok c details durl =>
        cases ok with
        | false =>
            simp only [Bool.not_false, if_true]
            exact fun h => Or.inl h
        | true =>
            simp only [observedTerminal, Bool.not_true, if_false]
            exact fun h => Or.inr h

/-- Claim C1 counterexample: at an observation where the queue engine reports
failure while the Job Store status is still "processing", the claimed
OR-of-signals condition says the loop must stop, but the code does not clear
the interval: the done test reads only processing_status. -/
theorem c1_counterexample :
    claimedStopCondition celeryFailedObservation = true ∧
    (pollTick celeryFailedObservation pollerInit).stopped = false := by
  decide

/-- Claim C1, amended: a not-yet-stopped polling loop stops on an observation
exactly when that observation is an ok response whose details carry
processing_status "completed" or "failed"; the queue-engine failure flag is
ignored and never stops the loop on its own. -/
theorem c1_theorem (r : FetchResult) (s : PollerS) (h : s.stopped = false) :
    (pollTick r s).stopped = observedTerminal r := by
  unfold pollTick
  rw [h]
  simp only [Bool.false_eq_true, if_false]
  match r with
  | FetchResult.netError => simp [observedTerminal, h]
  | FetchResult.response ok c details durl =>
      cases ok with
      | false => simp [observedTerminal, h]
      | true => simp [observedTerminal]

theorem c1_witness :
    pollerInit.stopped = false ∧
    (pollTick celeryFailedObservation pollerInit).stopped =
      observedTerminal celeryFailedObservation :=
  ⟨by decide, c1_theorem celeryFailedObservation pollerInit (by decide)⟩

lemma runPoller_append (l1 l2 : List FetchResult) (s : PollerS) :
    runPoller (l1 ++ l2) s = runPoller l2 (runPoller l1 s) := by
  unfold runPoller
  exact List.foldl_append _ _ _ _

lemma runPoller_stops (ticks : List FetchResult) (s : PollerS) :
    (runPoller ticks s).stopped = true →
    s.stopped = true ∨ ∃ r ∈ ticks, observedTerminal r = true := by
  induction ticks generalizing s with
  | nil => exact fun h => Or.inl h
  | cons r rest ih =>
      intro h
      have h2 := ih (pollTick r s) h
      rcases h2 with h2 | ⟨r2, hm, ht⟩
      · rcases pollTick_stops r s h2 with h3 | h3
        · exact Or.inl h3
        · exact Or.inr ⟨r, List.mem_cons_self r rest, h3⟩
      · exact Or.inr ⟨r2, List.mem_cons_of_mem r hm, ht⟩

/-- The tick sequence of spec scenario 8.8: the network request throws on
tick 2 of 5 for a job that succeeds on tick 5. -/
def scenarioTicks : List FetchResult :=
  [okProcessingObservation, FetchResult.netError, okProcessingObservation,
   okProcessingObservation, okCompletedObservation]

/-- Claim C6: a transient network error during a tick never terminates the
polling loop — deleting any netError tick from a tick sequence leaves the
final poller state unchanged, so a job that later completes is still
reported as completed; the loop only ever stops through an observation of a
terminal processing_status; and on the spec scenario (throw on tick 2 of 5,
success on tick 5) the final state is stopped with the completed snapshot
cached. -/
theorem c6_theorem :
    (∀ pre post s, runPoller (pre ++ FetchResult.netError :: post) s =
      runPoller (pre ++ post) s) ∧
    (∀ ticks s, (runPoller ticks s).stopped = true →
      s.stopped = true ∨ ∃ r ∈ ticks, observedTerminal r = true) ∧
    ((runPoller scenarioTicks pollerInit).stopped = true ∧
      (runPoller scenarioTicks pollerInit).state = some completedDetails) := by
  refine ⟨?_, runPoller_stops, by decide⟩
  intro pre post s
  rw [runPoller_append, runPoller_append]
  show runPoller (FetchResult.netError :: post) _ = _
  unfold runPoller
  rw [List.foldl_cons, pollTick_netError]

theorem c6_witness :
    (runPoller [okCompletedObservation] pollerInit).stopped = true ∧
    (pollerInit.stopped = true ∨
      ∃ r ∈ [okCompletedObservation], observedTerminal r = true) :=
  ⟨by decide, c6_theorem.2.1 [okCompletedObservation] pollerInit (by decide)⟩

set_option maxRecDepth 4000 in
/-- Claim C7 counterexample: the poller handles the not-found reply for an
unknown job id exactly as it handles a transient network error — the tick is
a silent no-op — and 100 consecutive not-found replies leave the loop still
running with nothing surfaced, so the poller does retry indefinitely and
does not treat not-found distinctly. -/
theorem c7_counterexample :
    pollTick notFoundResponse pollerInit = pollTick FetchResult.netError pollerInit ∧
    (runPoller (List.replicate 100 notFoundResponse) pollerInit).stopped = false ∧
    (runPoller (List.replicate 100 notFoundResponse) pollerInit).state = none := by
  decide

/-- Claim C7, amended: the poll code returns early on any non-ok response, so
a not-found reply is processed identically to a transient network error:
both leave the hook state untouched, and any number of consecutive not-found
replies leaves the loop running unchanged — no distinct not-found signal is
ever surfaced by the poller. -/
theorem c7_theorem :
    (∀ c d u s, pollTick (FetchResult.response false c d u) s = s) ∧
    (∀ s, pollTick FetchResult.netError s = s) ∧
    (∀ n s, runPoller (List.replicate n notFoundResponse) s = s) := by
  refine ⟨pollTick_notOk, pollTick_netError, ?_⟩
  intro n
  induction n with
  | zero => intro s; rfl
  | succ k ih =>
      intro s
      rw [List.replicate_succ]
      show runPoller (List.replicate k notFoundResponse)
        (pollTick notFoundResponse s) = s
      rw [show pollTick notFoundResponse s = s from pollTick_notOk _ _ _ s]
      exact ih s

/-- Runtime bookkeeping for one mounted useJobPoller instance (one job):
whether the setInterval handle is still installed, whether the effect
cleanup has run, how many poll requests are awaiting their response, and how
many state-update callbacks have run after cleanup. -/
structure HookRt where
  intervalActive : Bool
  cancelled : Bool
  inFlight : Nat
  lateCallbacks : Nat
deriving DecidableEq, Repr

/-- Events in the life of one useJobPoller instance: the interval timer
fires and starts a poll request; a pending poll request resolves and its
continuation (setState and the done test) runs; the effect cleanup runs
(navigation away or a restart), which only calls clearInterval. -/
inductive PollerEvent where
  | tickFire
  | resolveOne
  | cleanup
deriving DecidableEq, Repr

/-- Event semantics read off the useJobPoller code. A timer can only fire
while the interval is installed. The continuation of a resolved poll runs
setState unconditionally: the code has no liveness flag, so nothing stops it
after cleanup, which is counted in lateCallbacks. Cleanup only clears the
interval handle; requests already in flight are not aborted. -/
def hookStep (s : HookRt) (e : PollerEvent) : HookRt :=
  match e with
  | PollerEvent.tickFire =>
      if s.intervalActive then { s with inFlight := s.inFlight + 1 } else s
  | PollerEvent.resolveOne =>
      if s.inFlight > 0 then
        { s with
          inFlight := s.inFlight - 1
          lateCallbacks := if s.cancelled then s.lateCallbacks + 1 else s.lateCallbacks }
      else s
  | PollerEvent.cleanup => { s with intervalActive := false, cancelled := true }

/-- Folding the event semantics over a schedule of events. -/
def hookRun (s : HookRt) (evs : List PollerEvent) : HookRt := evs.foldl hookStep s

/-- State right after the effect body ran: the immediate poll() call is in
flight and the interval is installed. -/
def hookInit : HookRt :=
  { intervalActive := true, cancelled := false, inFlight := 1, lateCallbacks := 0 }

/-- Claim C5 counterexample: cancel while the mount-time poll request is
still in flight, then let that request resolve — its setState callback runs
after cancellation, because cleanup only clears the interval handle and no
liveness flag guards the continuation. -/
theorem c5_counterexample :
    (hookRun hookInit [PollerEvent.cleanup, PollerEvent.resolveOne]).lateCallbacks = 1 := by
  decide

/-- Claim C5, amended: cleanup deterministically clears the interval and
afterwards no tick ever starts a new request — from any state with the
interval cleared, the interval stays cleared and the number of in-flight
requests never grows under any further schedule; but requests already in
flight at cancellation still run their state-update callback when they
resolve (see the counterexample), there being no liveness flag. -/
theorem c5_theorem :
    (∀ s, (hookStep s PollerEvent.cleanup).intervalActive = false ∧
      (hookStep s PollerEvent.cleanup).cancelled = true) ∧
    (∀ evs s, s.intervalActive = false →
      (hookRun s evs).intervalActive = false ∧ (hookRun s evs).inFlight ≤ s.inFlight) := by
  constructor
  · intro s
    exact ⟨rfl, rfl⟩
  · intro evs
    induction evs with
    | nil => exact fun s h => ⟨h, Nat.le_refl _⟩
    | cons e rest ih =>
        intro s h
        have hstep : (hookStep s e).intervalActive = false ∧
            (hookStep s e).inFlight ≤ s.inFlight := by
          cases e with
          | tickFire => simp [hookStep, h]
          | resolveOne =>
              simp only [hookStep]
              split
              · exact ⟨h, Nat.sub_le _ _⟩
              · exact ⟨h, Nat.le_refl _⟩
          | cleanup => exact ⟨rfl, Nat.le_refl _⟩
        have hrest := ih (hookStep s e) hstep.1
        exact ⟨hrest.1, Nat.le_trans hrest.2 hstep.2⟩

theorem c5_witness :
    (hookStep hookInit PollerEvent.cleanup).intervalActive = false ∧
    (hookRun (hookStep hookInit PollerEvent.cleanup)
      [PollerEvent.tickFire, PollerEvent.tickFire]).inFlight ≤
      (hookStep hookInit PollerEvent.cleanup).inFlight :=
  ⟨(c5_theorem.1 hookInit).1,
   (c5_theorem.2 [PollerEvent.tickFire, PollerEvent.tickFire]
     (hookStep hookInit PollerEvent.cleanup) (by decide)).2⟩

/-- Position of a status in the total order of the README progression
diagram: queued, processing, ocr_started, ocr_completed,
translation_started, translation_completed, summarising, completed; the
failed side branch sits outside that chain and is given the top rank. -/
def statusRank : ProcessingStatus → Nat
  | ProcessingStatus.queued => 0
  | ProcessingStatus.processing => 1
  | ProcessingStatus.ocr_started => 2
  | ProcessingStatus.ocr_completed => 3
  | ProcessingStatus.translation_started => 4
  | ProcessingStatus.translation_completed => 5
  | ProcessingStatus.summarising => 6
  | ProcessingStatus.completed => 7
  | ProcessingStatus.failed => 8

/-- The successor in the required forward order of the progression diagram;
the two terminal states have none. -/
def nextStatus : ProcessingStatus → Option ProcessingStatus
  | ProcessingStatus.queued => some ProcessingStatus.processing
  | ProcessingStatus.processing => some ProcessingStatus.ocr_started
  | ProcessingStatus.ocr_started => some ProcessingStatus.ocr_completed
  | ProcessingStatus.ocr_completed => some ProcessingStatus.translation_started
  | ProcessingStatus.translation_started => some ProcessingStatus.translation_completed
  | ProcessingStatus.translation_completed => some ProcessingStatus.summarising
  | ProcessingStatus.summarising => some ProcessingStatus.completed
  | ProcessingStatus.completed => none
  | ProcessingStatus.failed => none

/-- The two terminal statuses. -/
def isTerminalStatus (s : ProcessingStatus) : Bool :=
  s == ProcessingStatus.completed || s == ProcessingStatus.failed

/-- Modelled from the spec: the worker status transition relation. The
worker task code (process_task.py) is not among the repository sources; the
relation is read off the README progression diagram and spec section 4.2:
one forward step in the required order with no skipping, plus the side
branch to failed, while completed and failed, the only terminal states, have
no transition out of them. -/
def stepOk (a b : ProcessingStatus) : Bool :=
  nextStatus a == some b || (!isTerminalStatus a && b == ProcessingStatus.failed)

/-- The server may persist several worker steps between two client polls, so
one poll-to-poll observation is related by any number of worker steps. -/
def reaches (a b : ProcessingStatus) : Prop :=
  Relation.ReflTransGen (fun x y => stepOk x y = true) a b

/-- A sequence of processing_status values read over repeated polls:
consecutive observations are separated by some number of worker steps. -/
def ObservedTrace (l : List ProcessingStatus) : Prop := l.Chain' reaches

lemma stepOk_rank : ∀ a b, stepOk a b = true →
    b ≠ ProcessingStatus.failed → statusRank a < statusRank b := by
  decide

lemma stepOk_not_from_failed : ∀ b, stepOk ProcessingStatus.failed b = false := by
  decide

lemma reaches_rank {a b : ProcessingStatus} (h : reaches a b)
    (hb : b ≠ ProcessingStatus.failed) : statusRank a ≤ statusRank b := by
  induction h with
  | refl => exact Nat.le_refl _
  | tail hac hstep ih =>
      rename_i c d
      have hc : c ≠ ProcessingStatus.failed := by
        intro hcf
        rw [hcf] at hstep
        rw [stepOk_not_from_failed d] at hstep
        exact Bool.false_ne_true hstep
      exact Nat.le_trans (ih hc) (Nat.le_of_lt (stepOk_rank c d hstep hb))

/-- Claim C4 counterexample: completed is terminal, so the model derived
from the spec defines no transition out of it; in particular the direct
transition completed to failed that the claim permits from any state is not
available. -/
theorem c4_counterexample :
    stepOk ProcessingStatus.completed ProcessingStatus.failed = false := by
  decide

/-- Claim C4, amended: over any polled observation sequence in which failed
is never observed, statusRank is non-decreasing between consecutive
observations (hence along the whole sequence), and a direct transition to
failed is permitted from every non-terminal state — but not from the
terminal states completed and failed. -/
theorem c4_theorem :
    (∀ l : List ProcessingStatus, ObservedTrace l → ProcessingStatus.failed ∉ l →
      l.Chain' (fun a b => statusRank a ≤ statusRank b)) ∧
    (∀ s, isTerminalStatus s = false → stepOk s ProcessingStatus.failed = true) := by
  constructor
  · intro l
    induction l with
    | nil => exact fun _ _ => List.chain'_nil
    | cons a t ih =>
        cases t with
        | nil => exact fun _ _ => List.chain'_singleton a
        | cons b t2 =>
            intro h hf
            have h2 : reaches a b ∧ List.Chain' reaches (b :: t2) := List.chain'_cons.mp h
            rw [List.chain'_cons]
            have hbne : b ≠ ProcessingStatus.failed := fun hb =>
              hf (hb ▸ List.mem_cons_of_mem a (List.mem_cons_self b t2))
            refine ⟨reaches_rank h2.1 hbne, ih h2.2 ?_⟩
            intro hmem
            exact hf (List.mem_cons_of_mem a hmem)
  · decide

theorem c4_witness :
    ObservedTrace [ProcessingStatus.queued, ProcessingStatus.processing] ∧
    List.Chain' (fun a b => statusRank a ≤ statusRank b)
      [ProcessingStatus.queued, ProcessingStatus.processing] ∧
    stepOk ProcessingStatus.processing ProcessingStatus.failed = true :=
  have hobs : ObservedTrace [ProcessingStatus.queued, ProcessingStatus.processing] :=
    List.chain'_cons.mpr ⟨Relation.ReflTransGen.single (by decide),
      List.chain'_singleton ProcessingStatus.processing⟩
  ⟨hobs, c4_theorem.1 _ hobs (by decide), c4_theorem.2 ProcessingStatus.processing (by decide)⟩

/-- The job record at creation time: the upload endpoint creates it with
processing_status queued and every nullable field unset. -/
def initialJob : JobDetails :=
  { processing_status := ProcessingStatus.queued
    current_page := none, total_pages := none, output_pdf_path := none
    error_message := none, completed_at := none, summary := none }

/-- Modelled from the spec: the fields the worker persists when it moves a
job to a given status. The worker task code (process_task.py) is not among
the repository sources; this follows the field-setting contract of spec
section 4.2 and the README table of MongoDB fields written by the worker:
total_pages at ocr_completed, current_page during translation,
output_pdf_path, summary and completed_at at completed (the README sample
shows current_page back to null there), error_message and completed_at at
failed; every transition updates processing_status. -/
def workerWrite (s : ProcessingStatus) (page pages : Int) (path summ msg ts : String)
    (r : JobDetails) : JobDetails :=
  match s with
  | ProcessingStatus.ocr_completed =>
      { r with processing_status := s, total_pages := some pages }
  | ProcessingStatus.translation_started =>
      { r with processing_status := s, current_page := some page }
  | ProcessingStatus.completed =>
      { r with
          processing_status := s
          current_page := none
          output_pdf_path := some path
          summary := some summ
          completed_at := some ts }
  | ProcessingStatus.failed =>
      { r with processing_status := s, error_message := some msg, completed_at := some ts }
  | _ => { r with processing_status := s }

/-- The job records observable in the Job Store: the freshly created record,
a per-page current_page update during translation, and the write performed
at each legal status transition. -/
inductive WorkerRun : JobDetails → Prop where
  | init : WorkerRun initialJob
  | pageTick (r : JobDetails) (page : Int) : WorkerRun r →
      r.processing_status = ProcessingStatus.translation_started →
      WorkerRun { r with current_page := some page }
  | step (r : JobDetails) (s : ProcessingStatus) (page pages : Int)
      (path summ msg ts : String) : WorkerRun r →
      stepOk r.processing_status s = true →
      WorkerRun (workerWrite s page pages path summ msg ts r)

/-- The field co-occurrence property of the claim: completed_at non-null iff
the status is terminal, error_message non-null iff failed, output artifact
path and summary non-null iff completed. -/
def FieldInv (r : JobDetails) : Prop :=
  ((r.completed_at ≠ none) ↔ isTerminalStatus r.processing_status = true) ∧
  ((r.error_message ≠ none) ↔ r.processing_status = ProcessingStatus.failed) ∧
  ((r.output_pdf_path ≠ none) ↔ r.processing_status = ProcessingStatus.completed) ∧
  ((r.summary ≠ none) ↔ r.processing_status = ProcessingStatus.completed)

lemma stepOk_src_not_terminal : ∀ a b, stepOk a b = true →
    isTerminalStatus a = false := by
  decide

lemma opt_none_of_iff {α : Type} {x : Option α} {P : Prop}
    (h : (x ≠ none) ↔ P) (hp : ¬P) : x = none := by
  cases x with
  | none => rfl
  | some v => exact absurd (h.mp (by simp)) hp

/-- Claim C8: in every observable job record of the modelled worker,
completed_at is non-null iff the status is terminal, error_message is
non-null iff the status is failed, and output_pdf_path and summary are
non-null iff the status is completed. -/
theorem c8_theorem (r : JobDetails) (h : WorkerRun r) : FieldInv r := by
  induction h with
  | init => exact ⟨by simp [initialJob, isTerminalStatus], by simp [initialJob],
      by simp [initialJob], by simp [initialJob]⟩
  | pageTick r page hr hstat ih => exact ih
  | step r s page pages path summ msg ts hr hstep ih =>
      have hterm : isTerminalStatus r.processing_status = false :=
        stepOk_src_not_terminal _ _ hstep
      have hnc : r.processing_status ≠ ProcessingStatus.completed := by
        intro hx
        rw [hx] at hterm
        exact absurd hterm (by decide)
      have hnf : r.processing_status ≠ ProcessingStatus.failed := by
        intro hx
        rw [hx] at hterm
        exact absurd hterm (by decide)
      have hca : r.completed_at = none :=
        opt_none_of_iff ih.1 (by rw [hterm]; exact fun hx => Bool.false_ne_true hx)
      have hem : r.error_message = none := opt_none_of_iff ih.2.1 hnf
      have hop : r.output_pdf_path = none := opt_none_of_iff ih.2.2.1 hnc
      have hsm : r.summary = none := opt_none_of_iff ih.2.2.2 hnc
      cases s <;>
        simp [workerWrite, FieldInv, isTerminalStatus, hca, hem, hop, hsm]

theorem c8_witness :
    FieldInv initialJob ∧
    FieldInv (workerWrite ProcessingStatus.processing 0 0 "" "" "" "" initialJob) :=
  ⟨c8_theorem initialJob WorkerRun.init,
   c8_theorem _ (WorkerRun.step initialJob ProcessingStatus.processing 0 0 "" "" "" ""
     WorkerRun.init (by decide))⟩

/-- A file as reported by the browser in a drop or file-picker event. -/
structure BrowserFile where
  name : String
  type : String
  size : Nat
deriving DecidableEq, Repr

/-- An entry of the wizard file list. The random string id generated by the
code is modelled as a fresh Nat drawn from a counter; the display-only
fileSize string (floating-point formatting), the wall-clock uploadDate and
the cosmetic pages and language fields play no part in any claim and are
omitted. -/
structure UploadedFile where
  id : Nat
  file : BrowserFile
  status : String
  progress : Nat
deriving DecidableEq, Repr

/-- The Upload component state the file operations touch. -/
structure UploadState where
  files : List UploadedFile
  selectedFiles : List Nat
  currentStep : Nat
  nextId : Nat
deriving DecidableEq, Repr

/-- The content-type filter applied by handleDrop and handleFileInput. -/
def isPdf (f : BrowserFile) : Bool := f.type == "application/pdf"

/-- Fresh pending entries for a batch of accepted files. -/
def mkEntries (startId : Nat) (fs : List BrowserFile) : List UploadedFile :=
  fs.enum.map (fun p =>
    { id := startId + p.1, file := p.2, status := "pending", progress := 0 })

/-- handleDrop: when files were dropped, keep exactly those whose reported
type is application/pdf, append fresh pending entries for them to the file
list and their ids to the selection, and advance step 2 to step 3 when at
least one was accepted. Nothing else changes and no error is raised. -/
def handleDrop (dropped : List BrowserFile) (st : UploadState) : UploadState :=
  if dropped.length > 0 then
    let newFiles := mkEntries st.nextId (dropped.filter isPdf)
    { files := st.files ++ newFiles
      selectedFiles := st.selectedFiles ++ newFiles.map (fun f => f.id)
      currentStep := if newFiles.length > 0 && st.currentStep == 2 then 3 else st.currentStep
      nextId := st.nextId + newFiles.length }
  else st

/-- handleFileInput: the file-picker handler runs the same filter-and-append
logic as handleDrop (it additionally resets the DOM input value, which has
no counterpart in this state). -/
def handleFileInput (picked : List BrowserFile) (st : UploadState) : UploadState :=
  if picked.length > 0 then
    let newFiles := mkEntries st.nextId (picked.filter isPdf)
    { files := st.files ++ newFiles
      selectedFiles := st.selectedFiles ++ newFiles.map (fun f => f.id)
      currentStep := if newFiles.length > 0 && st.currentStep == 2 then 3 else st.currentStep
      nextId := st.nextId + newFiles.length }
  else st

/-- removeFile: drop the entry with the given id from the file list and its
id from the selection. -/
def removeFile (fid : Nat) (st : UploadState) : UploadState :=
  { st with
      files := st.files.filter (fun f => f.id != fid)
      selectedFiles := st.selectedFiles.filter (fun i => i != fid) }

/-- clearAllFiles: empty both lists and go back to the upload step. -/
def clearAllFiles (st : UploadState) : UploadState :=
  { st with files := [], selectedFiles := [], currentStep := 2 }

/-- toggleFileSelection: remove the id when selected, append it when not. -/
def toggleFileSelection (fid : Nat) (st : UploadState) : UploadState :=
  { st with
      selectedFiles :=
        if st.selectedFiles.contains fid then st.selectedFiles.filter (fun i => i != fid)
        else st.selectedFiles ++ [fid] }

/-- selectAllFiles: deselect everything when everything was selected,
otherwise select every file. -/
def selectAllFiles (st : UploadState) : UploadState :=
  { st with
      selectedFiles :=
        if st.selectedFiles.length = st.files.length then []
        else st.files.map (fun f => f.id) }

/-- The onFilesChange callback of the upload wizard page: a longer list is
treated as an addition — the list is stored and the ids not previously
present are appended to the selection; otherwise the list is stored and the
selection is restricted to the surviving ids. -/
def onFilesChange (newFilesList : List UploadedFile) (st : UploadState) : UploadState :=
  if newFilesList.length > st.files.length then
    let addedFiles := newFilesList.filter (fun nf => !(st.files.any (fun of => of.id == nf.id)))
    { st with
        files := newFilesList
        selectedFiles := st.selectedFiles ++ addedFiles.map (fun f => f.id) }
  else
    { st with
        files := newFilesList
        selectedFiles :=
          st.selectedFiles.filter (fun i => (newFilesList.map (fun f => f.id)).contains i) }

/-- Claim C9: for every drop or picker event, exactly the incoming files
whose reported content type is application/pdf are appended (as fresh
entries) to the file list and their ids to the selection; files of any
other type are silently dropped and the existing entries are untouched. -/
theorem c9_theorem (dropped : List BrowserFile) (st : UploadState) :
    (handleDrop dropped st).files =
      st.files ++ mkEntries st.nextId (dropped.filter isPdf) ∧
    (handleDrop dropped st).selectedFiles =
      st.selectedFiles ++ (mkEntries st.nextId (dropped.filter isPdf)).map (fun f => f.id) ∧
    (handleFileInput dropped st).files =
      st.files ++ mkEntries st.nextId (dropped.filter isPdf) ∧
    (handleFileInput dropped st).selectedFiles =
      st.selectedFiles ++ (mkEntries st.nextId (dropped.filter isPdf)).map (fun f => f.id) := by
  cases dropped with
  | nil => simp [handleDrop, handleFileInput, mkEntries]
  | cons a t => simp [handleDrop, handleFileInput]

/-- The selection invariant: every id in selectedFiles is the id of some
element of files. -/
def SelInv (st : UploadState) : Prop :=
  ∀ x ∈ st.selectedFiles, x ∈ st.files.map (fun f => f.id)

lemma handleFileInput_eq_handleDrop : handleFileInput = handleDrop := rfl

lemma selInv_handleDrop (st : UploadState) (hinv : SelInv st)
    (dropped : List BrowserFile) : SelInv (handleDrop dropped st) := by
  intro x hx
  by_cases hlen : dropped.length > 0
  · simp only [handleDrop, if_pos hlen] at hx ⊢
    rw [List.map_append]
    rcases List.mem_append.mp hx with h | h
    · exact List.mem_append.mpr (Or.inl (hinv x h))
    · exact List.mem_append.mpr (Or.inr h)
  · simp only [handleDrop, if_neg hlen] at hx ⊢
    exact hinv x hx

/-- Claim C10: after each wizard operation the selection stays a subset of
the file-list ids. The toggle branch that adds an id is only reachable from
a rendered file row, so its id is an id of the file list; the growing branch
of onFilesChange represents a file addition, so every previously stored id
is still present in the new list. -/
theorem c10_theorem (st : UploadState) (hinv : SelInv st) :
    (∀ dropped, SelInv (handleDrop dropped st)) ∧
    (∀ picked, SelInv (handleFileInput picked st)) ∧
    (∀ fid, SelInv (removeFile fid st)) ∧
    SelInv (clearAllFiles st) ∧
    (∀ fid, fid ∈ st.files.map (fun f => f.id) → SelInv (toggleFileSelection fid st)) ∧
    SelInv (selectAllFiles st) ∧
    (∀ newFilesList : List UploadedFile,
      (newFilesList.length > st.files.length →
        ∀ f ∈ st.files, f.id ∈ newFilesList.map (fun g => g.id)) →
      SelInv (onFilesChange newFilesList st)) := by
  refine ⟨selInv_handleDrop st hinv, ?_, ?_, ?_, ?_, ?_, ?_⟩
  · rw [handleFileInput_eq_handleDrop]
    exact selInv_handleDrop st hinv
  · intro fid x hx
    simp only [removeFile] at hx ⊢
    have hx2 := List.mem_filter.mp hx
    obtain ⟨f, hf, hfx⟩ := List.mem_map.mp (hinv x hx2.1)
    refine List.mem_map.mpr ⟨f, List.mem_filter.mpr ⟨hf, ?_⟩, hfx⟩
    rw [hfx]
    exact hx2.2
  · intro x hx
    simp only [clearAllFiles] at hx
    exact absurd hx (List.not_mem_nil x)
  · intro fid hfid x hx
    simp only [toggleFileSelection] at hx ⊢
    by_cases hc : st.selectedFiles.contains fid
    · rw [if_pos hc] at hx
      exact hinv x (List.mem_filter.mp hx).1
    · rw [if_neg hc] at hx
      rcases List.mem_append.mp hx with h | h
      · exact hinv x h
      · rw [List.mem_singleton] at h
        exact h ▸ hfid
  · intro x hx
    simp only [selectAllFiles] at hx ⊢
    by_cases hc : st.selectedFiles.length = st.files.length
    · rw [if_pos hc] at hx
      exact absurd hx (List.not_mem_nil x)
    · rw [if_neg hc] at hx
      exact hx
  · intro newFilesList hext x hx
    by_cases hlen : newFilesList.length > st.files.length
    · simp only [onFilesChange, if_pos hlen] at hx ⊢
      rcases List.mem_append.mp hx with h | h
      · obtain ⟨f, hf, hfx⟩ := List.mem_map.mp (hinv x h)
        exact hfx ▸ hext hlen f hf
      · obtain ⟨f, hf, hfx⟩ := List.mem_map.mp h
        exact List.mem_map.mpr ⟨f, List.mem_of_mem_filter hf, hfx⟩
    · simp only [onFilesChange, if_neg hlen] at hx ⊢
      have hx2 := List.mem_filter.mp hx
      exact List.mem_of_elem_eq_true hx2.2

theorem c10_witness :
    SelInv { files := [], selectedFiles := [], currentStep := 2, nextId := 0 } ∧
    SelInv (clearAllFiles { files := [], selectedFiles := [], currentStep := 2, nextId := 0 }) :=
  ⟨fun x hx => absurd hx (List.not_mem_nil x),
   (c10_theorem { files := [], selectedFiles := [], currentStep := 2, nextId := 0 }
     (fun x hx => absurd hx (List.not_mem_nil x))).2.2.2.1⟩

/-- The externally visible actions the import-and-analyze flows perform,
in order: wizard step changes, the bulk file upload, the import dispatch
call (which returns the job ids of the dispatched jobs), a status poll of
one job, React Query refetches, the analyze call, a blocking alert, and the
run-status banner of the pipeline panel. -/
inductive FlowStep where
  | setStep (n : Nat)
  | uploadFiles (count : Nat)
  | importFiles (jobIds : List String)
  | pollJob (jobId : String)
  | refetchContent
  | refetchAnalysis
  | analyzeReport
  | alertUser (msg : String)
  | setRunStatus (ok : Bool)
deriving DecidableEq, Repr

/-- The Upload component state handleImportAndAnalyze reads. -/
structure UploadFlowState where
  files : List UploadedFile
  selectedFiles : List Nat
  reportId : Option String
deriving DecidableEq, Repr

/-- The steps the single catch block of handleImportAndAnalyze performs:
one generic alert, then back to step 3. -/
def failTail : List FlowStep :=
  [FlowStep.alertUser "An error occurred during processing. Please try again.",
   FlowStep.setStep 3]

/-- The steps from the import dispatch onwards: the import call returns the
job ids at once; on reported success the analyze call follows directly, then
step 5; a throw at either await lands in the catch block. -/
def importTail (importOk analyzeOk : Bool) (jobIds : List String) : List FlowStep :=
  FlowStep.setStep 4 :: FlowStep.importFiles jobIds ::
    (if !importOk then failTail
     else FlowStep.analyzeReport ::
       (if !analyzeOk then failTail else [FlowStep.setStep 5]))

/-- The action trace of handleImportAndAnalyze. Guards first: an empty
selection does nothing and a missing report id only alerts. Otherwise the
flow enters step 4, uploads the selected non-empty files when there are
any (uploadOk tells whether that await resolves), calls the import
dispatch — which enqueues one job per file and returns at once with the
job ids — and, when the import response reports success (importOk) goes
straight to the analyze call (analyzeOk tells whether it resolves) and
step 5; every thrown error is caught by the single catch block, which
shows one generic alert and returns to step 3. No job status is ever
queried anywhere in the flow. -/
def handleImportAndAnalyzeTrace (st : UploadFlowState)
    (uploadOk importOk analyzeOk : Bool) (jobIds : List String) : List FlowStep :=
  if st.selectedFiles.isEmpty then []
  else if st.reportId.isNone then
    [FlowStep.alertUser "Report ID is missing. Please restart."]
  else
    let filesToUpload :=
      st.files.filter (fun f => st.selectedFiles.contains f.id && f.file.size > 0)
    FlowStep.setStep 4 ::
      (if filesToUpload.length > 0 then
        FlowStep.uploadFiles filesToUpload.length ::
          (if !uploadOk then failTail else importTail importOk analyzeOk jobIds)
       else importTail importOk analyzeOk jobIds)

/-- The action trace of handleRunPipeline on the reports page: the import
dispatch, a refetch of the extracted content, the analyze call, a refetch of
the stored analysis, then a success banner; any thrown step is caught and
sets an error banner. No job status is ever queried. -/
def handleRunPipelineTrace (importOk analyzeOk : Bool) (jobIds : List String) :
    List FlowStep :=
  FlowStep.importFiles jobIds ::
    (if !importOk then [FlowStep.setRunStatus false]
     else FlowStep.refetchContent :: FlowStep.analyzeReport ::
       (if !analyzeOk then [FlowStep.setRunStatus false]
        else [FlowStep.refetchAnalysis, FlowStep.setRunStatus true]))

/-- A necessary condition for the property the claim asserts: if the
analyze step only ever runs after every dispatched job has been observed in
a terminal state, then in particular each dispatched job id has been polled
at least once before the analyze step. -/
@[reducible]
def analyzeAfterAllPolled (tr : List FlowStep) (jobIds : List String) : Prop :=
  ∀ i : Fin tr.length, tr.get i = FlowStep.analyzeReport →
    ∀ j ∈ jobIds, ∃ k : Fin tr.length, k.val < i.val ∧ tr.get k = FlowStep.pollJob j

/-- A one-file batch state for the flow: one selected pdf entry and a
report id present. -/
def cFlowState : UploadFlowState :=
  { files := [{ id := 1
                file := { name := "doc.pdf", type := "application/pdf", size := 100 }
                status := "pending", progress := 0 }]
    selectedFiles := [1]
    reportId := some "r1" }

lemma pollJob_not_mem_failTail (j : String) : FlowStep.pollJob j ∉ failTail := by
  simp [failTail]

lemma pollJob_not_mem_importTail (j : String) (importOk analyzeOk : Bool)
    (jobIds : List String) : FlowStep.pollJob j ∉ importTail importOk analyzeOk jobIds := by
  unfold importTail
  intro hmem
  rcases List.mem_cons.mp hmem with h | h
  · simp at h
  rcases List.mem_cons.mp h with h2 | h2
  · simp at h2
  revert h2
  split
  · intro h2
    exact pollJob_not_mem_failTail j h2
  · intro h2
    rcases List.mem_cons.mp h2 with h3 | h3
    · simp at h3
    revert h3
    split
    · intro h3
      exact pollJob_not_mem_failTail j h3
    · intro h3
      simp at h3

/-- Claim C2 counterexample: in the fully successful run of the flow on a
one-file batch dispatching job j1, the analyze step is present in the trace
but job j1 is never polled before it (it is never polled at all), so the
downstream step runs without every job of the batch having been observed
terminal. -/
theorem c2_counterexample :
    FlowStep.analyzeReport ∈ handleImportAndAnalyzeTrace cFlowState true true true ["j1"] ∧
    ¬ analyzeAfterAllPolled (handleImportAndAnalyzeTrace cFlowState true true true ["j1"])
        ["j1"] := by
  refine ⟨by decide, by decide⟩

/-- Claim C2, amended: neither flow ever polls any job status — the analyze
step is triggered directly after the import dispatch call resolves
successfully, with no observation of any per-job terminal state in
between. -/
theorem c2_theorem :
    (∀ st uploadOk importOk analyzeOk jobIds j,
      FlowStep.pollJob j ∉ handleImportAndAnalyzeTrace st uploadOk importOk analyzeOk jobIds) ∧
    (∀ importOk analyzeOk jobIds j,
      FlowStep.pollJob j ∉ handleRunPipelineTrace importOk analyzeOk jobIds) ∧
    (∀ st jobIds, st.selectedFiles.isEmpty = false → st.reportId.isNone = false →
      FlowStep.analyzeReport ∈ handleImportAndAnalyzeTrace st true true true jobIds) := by
  refine ⟨?_, ?_, ?_⟩
  · intro st uploadOk importOk analyzeOk jobIds j
    unfold handleImportAndAnalyzeTrace
    split
    · exact List.not_mem_nil _
    split
    · simp
    intro hmem
    rcases List.mem_cons.mp hmem with h | h
    · simp at h
    revert h
    split
    · intro h
      rcases List.mem_cons.mp h with h2 | h2
      · simp at h2
      revert h2
      split
      · intro h2
        exact pollJob_not_mem_failTail j h2
      · intro h2
        exact pollJob_not_mem_importTail j importOk analyzeOk jobIds h2
    · intro h
      exact pollJob_not_mem_importTail j importOk analyzeOk jobIds h
  · intro importOk analyzeOk jobIds j
    unfold handleRunPipelineTrace
    split_ifs <;> simp
  · intro st jobIds hsel hrep
    unfold handleImportAndAnalyzeTrace
    simp only [hsel, Bool.false_eq_true, if_false, hrep]
    split
    · simp [importTail, failTail]
    · simp [importTail, failTail]

theorem c2_witness :
    cFlowState.selectedFiles.isEmpty = false ∧ cFlowState.reportId.isNone = false ∧
    FlowStep.analyzeReport ∈ handleImportAndAnalyzeTrace cFlowState true true true ["j1"] :=
  ⟨by decide, by decide, c2_theorem.2.2 cFlowState ["j1"] (by decide) (by decide)⟩

/-- The messages the flow surfaces to the user: the arguments of its alert
calls, in order. -/
def surfacedMessages (tr : List FlowStep) : List String :=
  tr.filterMap (fun s =>
    match s with
    | FlowStep.alertUser m => some m
    | _ => none)

/-- The error_message strings carried by a batch of terminal job records. -/
def collectedErrors (jobs : List JobDetails) : List String :=
  jobs.filterMap (fun d => d.error_message)

/-- The boolean OR of per-job failure over a batch of terminal job
records. -/
def anyFailed (jobs : List JobDetails) : Bool :=
  jobs.any (fun d => d.processing_status == ProcessingStatus.failed)

/-- The terminal record of a job that failed in OCR, as in spec scenario
8.6. -/
def failedJobDetails : JobDetails :=
  { processing_status := ProcessingStatus.failed
    current_page := none, total_pages := none, output_pdf_path := none
    error_message := some "OCR failed: corrupt PDF"
    completed_at := some "2026-02-19T09:00:00.000Z"
    summary := none }

/-- Claim C3 counterexample: for a one-file batch whose single job failed
with an error_message, the successful run of the flow surfaces no message at
all — the collected error_message list and the surfaced list differ — even
though the flow does proceed to the analyze step. The per-job outcomes are
not an input of the flow anywhere, so no any-failed OR is ever computed. -/
theorem c3_counterexample :
    anyFailed [failedJobDetails] = true ∧
    collectedErrors [failedJobDetails] = ["OCR failed: corrupt PDF"] ∧
    surfacedMessages (handleImportAndAnalyzeTrace cFlowState true true true ["j1"]) = [] ∧
    FlowStep.analyzeReport ∈ handleImportAndAnalyzeTrace cFlowState true true true ["j1"] := by
  decide

/-- Claim C3, amended: whenever the dispatch and analyze calls resolve, the
flow proceeds to the analyze step unconditionally and surfaces no message at
all — in particular it never computes an aggregate any-failed result and
never surfaces any per-job error_message, because the job outcomes are not
consulted anywhere in the flow. -/
theorem c3_theorem (st : UploadFlowState) (jobIds : List String)
    (hsel : st.selectedFiles.isEmpty = false) (hrep : st.reportId.isNone = false) :
    surfacedMessages (handleImportAndAnalyzeTrace st true true true jobIds) = [] ∧
    FlowStep.analyzeReport ∈ handleImportAndAnalyzeTrace st true true true jobIds := by
  unfold handleImportAndAnalyzeTrace
  simp only [hsel, Bool.false_eq_true, if_false, hrep]
  constructor
  · split <;> simp [surfacedMessages, importTail, failTail]
  · split <;> simp [importTail, failTail]

theorem c3_witness :
    cFlowState.selectedFiles.isEmpty = false ∧ cFlowState.reportId.isNone = false ∧
    (surfacedMessages (handleImportAndAnalyzeTrace cFlowState true true true ["j2"]) = [] ∧
      FlowStep.analyzeReport ∈ handleImportAndAnalyzeTrace cFlowState true true true ["j2"]) :=
  ⟨by decide, by decide, c3_theorem cFlowState ["j2"] (by decide) (by decide)⟩
